import Mathlib

/-!
Verification of the desktop-tool order-acquisition pipeline
(`desktop-tool/src/order.py`): card-image path resolution, collection
construction with fill-image synthesis, print-details validation,
order-level validation, and the concurrent download step, shallowly
embedded as pure Lean functions over explicit filesystem/fetch oracles.
-/

namespace MpcOrder

/-- `os.path.join(dir, name)` for the single-component joins the code performs. -/
def joinPath (dir nm : String) : String := dir ++ "/" ++ nm

/-- `os.path.basename`: the part of the path after the last slash. -/
def basename (s : String) : String :=
  String.mk ((s.toList.reverse.takeWhile (fun c => c ≠ '/')).reverse)

/-- Python `name.rsplit(".", 1)`: split at the last dot.  `none` models the
list having a single element (no dot), in which case the source's
`name_split[1]` raises an uncaught `IndexError`. -/
def rsplitDot (s : String) : Option (String × String) :=
  let rev := s.toList.reverse
  let ext := rev.takeWhile (fun c => c ≠ '.')
  if ext.length = rev.length then none
  else some (String.mk ((rev.drop (ext.length + 1)).reverse), String.mk ext.reverse)

/-- Characters removed by Python `.strip(' "')`. -/
def isStripChar (c : Char) : Bool := c = ' ' || c = '"'

/-- Python `s.strip(' "')`: drop spaces and double quotes from both ends. -/
def stripQuotesSpaces (s : String) : String :=
  String.mk (((s.toList.dropWhile isStripChar).reverse.dropWhile isStripChar).reverse)

/-- The external collaborators consumed by path resolution: `file_exists`
from `src.io`, `os.path.isfile`, `os.path.getsize`,
`get_google_drive_file_name`, the `sanitize` filename filter, and the
image cache directory.  All are outside `order.py`; they are abstracted
as oracle functions so that theorems quantify over their answers. -/
structure ResolveEnv where
  fileExistsQ : String → Bool
  isFile : String → Bool
  getSize : String → Int
  lookupName : String → Option String
  sanitize : String → String
  imageDir : String

/-- `CardImage` (attrs class), with the attrs field defaults. -/
structure CardImage where
  drive_id : String := ""
  slots : List Int := []
  name : Option String := some ""
  file_path : Option String := some ""
  query : Option String := none
  downloaded : Bool := false
  uploaded : Bool := false
  errored : Bool := false
deriving DecidableEq

/-- The computation `CardImage.generate_file_path` performs, as a function of
the only fields it reads (`drive_id` and `name`), returning the new
`(name, file_path)` pair.  `none` models the uncaught `IndexError` from
`name.rsplit(".", 1)[1]` when the name has no dot.  Python truthiness is
modelled explicitly: `not self.name` holds for both `None` and `""`. -/
def resolvePath (env : ResolveEnv) (driveId : String) (name0 : Option String) :
    Option (Option String × Option String) :=
  if env.fileExistsQ driveId then
    some (some (basename driveId), some driveId)
  else
    let name1 := if name0 = none ∨ name0 = some "" then env.lookupName driveId else name0
    match name1 with
    | none =>
      if driveId ≠ "" then
        let nm := driveId ++ ".png"
        some (some nm, some (joinPath env.imageDir (env.sanitize nm)))
      else
        some (none, none)
    | some n =>
      let fp := joinPath env.imageDir (env.sanitize n)
      if ¬ env.isFile fp ∨ env.getSize fp ≤ 0 then
        match rsplitDot n with
        | none => none
        | some (stem, ext) =>
          some (some n,
            some (joinPath env.imageDir (env.sanitize (stem ++ " (" ++ driveId ++ ")." ++ ext))))
      else
        some (some n, some fp)

/-- `CardImage.generate_file_path`: updates `name` and `file_path` from
`resolvePath`; `none` is the uncaught `IndexError`. -/
def CardImage.generate_file_path (env : ResolveEnv) (c : CardImage) : Option CardImage :=
  (resolvePath env c.drive_id c.name).map fun p => { c with name := p.1, file_path := p.2 }

/-- `CardImage.validate`: `errored = any([errored, name is None, file_path is None])`. -/
def CardImage.validateStatus (c : CardImage) : CardImage :=
  { c with errored := c.errored || c.name.isNone || c.file_path.isNone }

/-- Construction of a `CardImage` through `__attrs_post_init__`
(`generate_file_path` then `validate`); fields not passed take the attrs
defaults. -/
def mkCardImage (env : ResolveEnv) (driveId : String) (slots : List Int)
    (name : Option String) (query : Option String) : Option CardImage :=
  (CardImage.generate_file_path env
    { drive_id := driveId, slots := slots, name := name, query := query }).map
    CardImage.validateStatus

/-- Result of one call of the external fetch primitive
`download_google_drive_file`: either a boolean return value, or a raised
exception (Python threads would die silently on it; `download_image`
catches it). -/
inductive FetchOutcome where
  | ok (b : Bool)
  | exn
deriving DecidableEq

/-- The fetch primitive: given drive id, target path, and the current
filesystem (a predicate saying which paths hold a usable file), it returns
an outcome together with the filesystem after the call.  Quantifying over
all such functions covers success, failure, exceptions, and arbitrary
filesystem effects. -/
def Fetch : Type := String → String → (String → Bool) → FetchOutcome × (String → Bool)

/-- `CardImage.file_exists`: `file_exists(self.file_path)`, false when the
path is unresolved. -/
def CardImage.fileExistsB (fs : String → Bool) (c : CardImage) : Bool :=
  match c.file_path with
  | some p => fs p
  | none => false

/-- Observable effects of one `download_image` call: the card object's
final state, the filesystem afterwards, the `queue.put` events, the number
of `download_bar.update()` calls, and the number of calls to the fetch
primitive. -/
structure DlResult where
  card : CardImage
  fs : String → Bool
  pushed : List CardImage
  barInc : Nat
  fetchCalls : Nat

/-- The tail of `download_image` after the (possible) fetch: the second
`if` setting `downloaded`, then the `finally` block pushing the card and
bumping the progress bar. -/
def finishDownload (c : CardImage) (fs : String → Bool) (calls : Nat) : DlResult :=
  let c2 := if c.fileExistsB fs && !c.errored then { c with downloaded := true } else c
  { card := c2, fs := fs, pushed := [c2], barInc := 1, fetchCalls := calls }

/-- `CardImage.download_image`.  The guarded fetch, the post-check, the
`except` branch that only logs, and the `finally` block are all mirrored;
in the exception case no assignment to `errored` happens and the card is
pushed in its pre-fetch state. -/
def CardImage.download_image (fetch : Fetch) (fs : String → Bool) (c : CardImage) : DlResult :=
  match c.file_path with
  | none => finishDownload c fs 0
  | some fp =>
    if !c.fileExistsB fs && !c.errored then
      match fetch c.drive_id fp fs with
      | (FetchOutcome.ok b, fs1) => finishDownload { c with errored := !b } fs1 1
      | (FetchOutcome.exn, fs1) =>
        { card := c, fs := fs1, pushed := [c], barInc := 1, fetchCalls := 1 }
    else
      finishDownload c fs 0

/-- `CardImageCollection.download_images` over the worker pool, as the
serialized schedule: each card's task runs `download_image` against the
filesystem left by the previous task. -/
def downloadAll (fetch : Fetch) : List CardImage → (String → Bool) →
    List DlResult × (String → Bool)
  | [], fs => ([], fs)
  | c :: cs, fs =>
    let r := c.download_image fetch fs
    let rest := downloadAll fetch cs r.fs
    (r :: rest.1, rest.2)

/-- Total number of fetch-primitive calls a batch performed. -/
def totalFetchCalls (rs : List DlResult) : Nat := (rs.map (·.fetchCalls)).sum

/-- `constants.Faces`. -/
inductive Faces where
  | front
  | back
deriving DecidableEq

/-- `CardImageCollection` (the queue is modelled per-run in `DlResult`). -/
structure CardImageCollection where
  cards : List CardImage
  num_slots : Int
  face : Faces

/-- The multiset of slots declared by a list of cards
(`{y for x in self.cards for y in x.slots}` up to list/set coercion). -/
def flatSlots (cards : List CardImage) : List Int := cards.foldr (fun c acc => c.slots ++ acc) []

/-- `set(range(0, num_slots))` as a list (empty when `n ≤ 0`, as in Python). -/
def intRange (n : Int) : List Int := (List.range n.toNat).map (fun k : Nat => (k : Int))

/-- `self.all_slots() - self.slots()`, listed in ascending order. -/
def missingSlots (n : Int) (cards : List CardImage) : List Int :=
  (intRange n).filter fun s => decide (s ∉ flatSlots cards)

/-- How entity construction can abort: an uncaught `IndexError` from path
resolution, or the `sys.exit(0)` taken after a `ValidationException`. -/
inductive BuildError where
  | indexError
  | exited
deriving DecidableEq

/-- One `<card>` element as `CardImage.from_element` reads it: the raw id
text (`None` when the tag is empty), the parsed slot list, and the
optional name and query texts. -/
structure CardRecord where
  idText : Option String := none
  slots : List Int := []
  name : Option String := none
  query : Option String := none

/-- `CardImage.from_element`: strip the id text, then construct (running
post-init path resolution and status validation). -/
def CardImage.from_element (env : ResolveEnv) (r : CardRecord) : Option CardImage :=
  mkCardImage env
    (match r.idText with
      | none => ""
      | some t => stripQuotesSpaces t)
    r.slots r.name r.query

/-- Building every explicit card of a face; a `none` from any card is the
uncaught `IndexError` crashing the run. -/
def buildCards (env : ResolveEnv) : List CardRecord → Except BuildError (List CardImage)
  | [] => Except.ok []
  | r :: rs =>
    match CardImage.from_element env r with
    | none => Except.error BuildError.indexError
    | some c => (buildCards env rs).map (fun cs => c :: cs)

/-- `CardImageCollection.from_element`: build the explicit cards, append
the synthetic fill card when a truthy `fill_image_id` is supplied and
slots are missing, then run `validate` (whose `ValidationException` is
caught and turned into `sys.exit(0)`). -/
def CardImageCollection.from_element (env : ResolveEnv) (records : List CardRecord)
    (numSlots : Int) (face : Faces) (fillImageId : Option String) :
    Except BuildError CardImageCollection :=
  match buildCards env records with
  | Except.error e => Except.error e
  | Except.ok cards =>
    let withFill : Except BuildError (List CardImage) :=
      match fillImageId with
      | some fid =>
        if fid ≠ "" then
          let missing := missingSlots numSlots cards
          if missing ≠ [] then
            match mkCardImage env (stripQuotesSpaces fid) missing (some "") none with
            | some fc => Except.ok (cards ++ [fc])
            | none => Except.error BuildError.indexError
          else Except.ok cards
        else Except.ok cards
      | none => Except.ok cards
    match withFill with
    | Except.error e => Except.error e
    | Except.ok cards2 =>
      if numSlots = 0 ∨ cards2 = [] then Except.error BuildError.exited
      else Except.ok { cards := cards2, num_slots := numSlots, face := face }

/-- `Details` (attrs class); integer fields are Python ints. -/
structure Details where
  quantity : Int
  bracket : Int
  stock : String
  foil : Bool
deriving DecidableEq

/-- Which rule of `Details.validate` raised its `ValidationException`. -/
inductive DetailsRule where
  | quantityRange
  | bracketUnsupported
  | stockUnsupported
  | foilUnsupported
deriving DecidableEq

/-- `Details.validate`.  Modelled from the spec: the allowed bracket set
`constants.BRACKETS`, the cardstock value set `constants.Cardstocks`, and
the foil-incompatible `Cardstocks.P10` value live in the absent
`constants` module (the spec describes them as a fixed set of print-run
sizes, an enum of stock identifiers, and one disallowed `(stock, foil)`
combination), so they are passed in as parameters; stock comparison is on
the string value, as for a str-valued enum. -/
def Details.validate (brackets : List Int) (cardstocks : List String) (p10 : String)
    (d : Details) : Except DetailsRule Unit :=
  if ¬ (0 < d.quantity ∧ d.quantity ≤ d.bracket) then Except.error DetailsRule.quantityRange
  else if d.bracket ∉ brackets then Except.error DetailsRule.bracketUnsupported
  else if d.stock ∉ cardstocks then Except.error DetailsRule.stockUnsupported
  else if d.stock = p10 ∧ d.foil = true then Except.error DetailsRule.foilUnsupported
  else Except.ok ()

/-- `CardOrder` (attrs class). -/
structure CardOrder where
  name : Option String
  details : Details
  fronts : CardImageCollection
  backs : CardImageCollection

/-- Python truthiness of `image.file_path`: falsy when `None` or `""`. -/
def falsyPath (c : CardImage) : Bool := c.file_path.isNone || c.file_path == some ""

/-- The data of the `ValidationException` raised by `CardOrder.validate`:
the face and the `image.slots or image.drive_id` named in the message. -/
structure OrderFailure where
  face : Faces
  slots : List Int
  driveId : String
deriving DecidableEq

/-- `CardOrder.validate`: the first image across fronts then backs whose
`file_path` is falsy raises, naming its slots (or drive id when the slot
list is empty). -/
def CardOrder.validate (o : CardOrder) : Except OrderFailure Unit :=
  match o.fronts.cards.find? falsyPath with
  | some c => Except.error { face := Faces.front, slots := c.slots, driveId := c.drive_id }
  | none =>
    match o.backs.cards.find? falsyPath with
    | some c => Except.error { face := Faces.back, slots := c.slots, driveId := c.drive_id }
    | none => Except.ok ()

/-- The `<order>` element as `CardOrder.from_element` consumes it:
already-parsed details numbers, the two lists of card elements, and the
`cardback` element's text (`none` models `cardback_elem.text is None`). -/
structure OrderElementData where
  details : Details
  fronts : List CardRecord
  backs : List CardRecord
  cardback : Option String

/-- `CardOrder.from_element`: validate details (exiting on failure), build
the front collection without a fill id, build the back collection with the
cardback text as fill id when present, force a single back's slots to
`[0]`, and run order-level validation (exiting on failure). -/
def CardOrder.from_element (env : ResolveEnv) (brackets : List Int)
    (cardstocks : List String) (p10 : String) (name : Option String)
    (inp : OrderElementData) : Except BuildError CardOrder :=
  match Details.validate brackets cardstocks p10 inp.details with
  | Except.error _ => Except.error BuildError.exited
  | Except.ok _ =>
    match CardImageCollection.from_element env inp.fronts inp.details.quantity
        Faces.front none with
    | Except.error e => Except.error e
    | Except.ok fronts =>
      match CardImageCollection.from_element env inp.backs inp.details.quantity
          Faces.back inp.cardback with
      | Except.error e => Except.error e
      | Except.ok backs0 =>
        let backs :=
          match backs0.cards with
          | [b] => { backs0 with cards := [{ b with slots := [0] }] }
          | _ => backs0
        let order : CardOrder :=
          { name := name, details := inp.details, fronts := fronts, backs := backs }
        match CardOrder.validate order with
        | Except.error _ => Except.error BuildError.exited
        | Except.ok _ => Except.ok order

/-! ## Helper lemmas -/

theorem rsplitDot_eq_none_of_no_dot (s : String) (h : ∀ ch ∈ s.toList, ch ≠ '.') :
    rsplitDot s = none := by
  have htake : s.data.reverse.takeWhile (fun c => !decide (c = '.')) = s.data.reverse := by
    apply List.takeWhile_eq_self_iff.mpr
    intro ch hm
    simp only [Bool.not_eq_true', decide_eq_false_iff_not]
    exact h ch (List.mem_reverse.mp hm)
  simp [rsplitDot, htake]

theorem mkCardImage_eq_some_iff (env : ResolveEnv) (d : String) (sl : List Int)
    (nm : Option String) (q : Option String) (c : CardImage) :
    mkCardImage env d sl nm q = some c ↔
      ∃ p, resolvePath env d nm = some p ∧
        c = { drive_id := d, slots := sl, name := p.1, file_path := p.2, query := q,
              downloaded := false, uploaded := false,
              errored := p.1.isNone || p.2.isNone } := by
  unfold mkCardImage CardImage.generate_file_path
  cases hr : resolvePath env d nm with
  | none => simp
  | some p =>
    simp only [Option.map_map, Option.map_some', Option.some.injEq, Function.comp]
    constructor
    · intro hc
      refine ⟨p, rfl, ?_⟩
      rw [← hc]
      simp [CardImage.validateStatus]
    · rintro ⟨p', hp', rfl⟩
      cases hp'
      simp [CardImage.validateStatus]

theorem mkCardImage_slots (env : ResolveEnv) (d : String) (sl : List Int)
    (nm : Option String) (q : Option String) (c : CardImage)
    (h : mkCardImage env d sl nm q = some c) : c.slots = sl ∧ c.drive_id = d := by
  obtain ⟨p, _, rfl⟩ := (mkCardImage_eq_some_iff env d sl nm q c).mp h
  exact ⟨rfl, rfl⟩

theorem mem_intRange (n : Int) (s : Int) : s ∈ intRange n ↔ 0 ≤ s ∧ s < n := by
  unfold intRange
  constructor
  · intro hm
    obtain ⟨k, hk, hks⟩ := List.mem_map.mp hm
    rw [List.mem_range] at hk
    omega
  · rintro ⟨h0, hn⟩
    apply List.mem_map.mpr
    exact ⟨s.toNat, List.mem_range.mpr (by omega), by omega⟩

theorem mem_missingSlots (n : Int) (cards : List CardImage) (s : Int) :
    s ∈ missingSlots n cards ↔ (0 ≤ s ∧ s < n) ∧ s ∉ flatSlots cards := by
  unfold missingSlots
  rw [List.mem_filter]
  rw [mem_intRange]
  simp

/-! ## Concrete environments and inputs for witnesses and counterexamples -/

/-- A cache-less environment: no file exists, lookups resolve nothing,
sanitizing is the identity, and the image directory is `cards`. -/
def envNoFs : ResolveEnv :=
  { fileExistsQ := fun _ => false, isFile := fun _ => false, getSize := fun _ => 0,
    lookupName := fun _ => none, sanitize := fun s => s, imageDir := "cards" }

/-- An environment whose name lookup answers `x.png` for every id. -/
def envLookup : ResolveEnv :=
  { envNoFs with lookupName := fun _ => some "x.png" }

/-- The empty filesystem. -/
def fsFalse : String → Bool := fun _ => false

/-- A fetch primitive that always raises, leaving the filesystem unchanged. -/
def fetchExnW : Fetch := fun _ _ fs => (FetchOutcome.exn, fs)

/-- A fetch primitive that reports success and creates the target file. -/
def fetchOkW : Fetch := fun _ fp fs => (FetchOutcome.ok true, fun q => q == fp || fs q)

/-- A fetch primitive that reports success without creating any file. -/
def fetchLieW : Fetch := fun _ _ fs => (FetchOutcome.ok true, fs)

/-- A fully resolved card used by download witnesses. -/
def cardW : CardImage :=
  { drive_id := "d", slots := [0], name := some "n.png", file_path := some "cards/n.png" }

/-- One `download_image` call pushes exactly its card and bumps the bar once,
whatever the branch taken. -/
theorem download_image_pushed (fetch : Fetch) (fs : String → Bool) (c : CardImage) :
    (c.download_image fetch fs).pushed = [(c.download_image fetch fs).card] ∧
      (c.download_image fetch fs).barInc = 1 := by
  unfold CardImage.download_image
  cases hfp : c.file_path with
  | none => simp [finishDownload]
  | some fp =>
    by_cases hc : (!c.fileExistsB fs && !c.errored) = true
    · simp only [hc, if_true]
      cases hf : fetch c.drive_id fp fs with
      | mk out fs1 => cases out <;> simp [finishDownload]
    · simp only [hc, if_false]
      simp [finishDownload]

/-! ## Claim theorems -/

/-- C1: every `download_image` invocation pushes its Card Image onto the
completion queue and increments the progress counter exactly once,
regardless of outcome — the fetch primitive is universally quantified, so
this covers returns of both booleans and a raised exception, and any
filesystem effect; consequently for a batch of N images (including a batch
in which exactly one image's fetch raises) every item completes: the batch
yields N results, the total number of queue pushes is N, each result
pushed exactly its own card, and each incremented the counter once. -/
theorem claim1_download_completion_exactly_once :
    ∀ (fetch : Fetch) (fs : String → Bool) (cs : List CardImage),
    (downloadAll fetch cs fs).1.length = cs.length ∧
    ((downloadAll fetch cs fs).1.map (fun r => r.pushed.length)).sum = cs.length ∧
    (downloadAll fetch cs fs).1.map (fun r => r.pushed) =
      (downloadAll fetch cs fs).1.map (fun r => [r.card]) ∧
    (downloadAll fetch cs fs).1.map (fun r => r.barInc) = List.replicate cs.length 1 := by
  intro fetch fs cs
  induction cs generalizing fs with
  | nil => simp [downloadAll]
  | cons c cs ih =>
    have hd := download_image_pushed fetch fs c
    have iht := ih (c.download_image fetch fs).fs
    simp [downloadAll, hd.1, hd.2, iht.1, iht.2.1, iht.2.2.1, iht.2.2.2,
      List.replicate_succ]
    omega

/-- C8: path resolution is deterministic — two cards with the same
`drive_id` and the same `name`, resolved against the same oracle answers
(file existence, file size, name lookup), obtain the same `file_path`,
whatever their other fields are. -/
theorem claim8_path_resolution_deterministic :
    ∀ (env : ResolveEnv) (c1 c2 : CardImage),
    c1.drive_id = c2.drive_id → c1.name = c2.name →
    (CardImage.generate_file_path env c1).map (fun c => c.file_path) =
      (CardImage.generate_file_path env c2).map (fun c => c.file_path) := by
  intro env c1 c2 h1 h2
  unfold CardImage.generate_file_path
  rw [h1, h2]
  cases resolvePath env c2.drive_id c2.name with
  | none => rfl
  | some p => simp

/-- Witness for C8 at a concrete environment and two cards sharing id and
name but differing in slots, query and status. -/
theorem claim8_path_resolution_deterministic_witness :
    (CardImage.generate_file_path envNoFs
        { drive_id := "abc", slots := [1], name := some "n.png" }).map (fun c => c.file_path) =
      (CardImage.generate_file_path envNoFs
        { drive_id := "abc", slots := [2, 3], name := some "n.png", query := some "q",
          errored := true }).map (fun c => c.file_path) :=
  claim8_path_resolution_deterministic envNoFs _ _ rfl rfl

/-- C9: when the id is not a local file, the display name is non-empty but
contains no dot, and the undisambiguated cache candidate is missing or
empty, `generate_file_path` hits `name.rsplit(".", 1)[1]` on a one-element
list: card construction dies with an uncaught `IndexError` (modelled as
`none`) instead of producing a resolved path. -/
theorem claim9_dotless_name_index_error :
    ∀ (env : ResolveEnv) (d : String) (sl : List Int) (q : Option String) (n : String),
    env.fileExistsQ d = false → n ≠ "" → (∀ ch ∈ n.toList, ch ≠ '.') →
    (env.isFile (joinPath env.imageDir (env.sanitize n)) = false ∨
      env.getSize (joinPath env.imageDir (env.sanitize n)) ≤ 0) →
    mkCardImage env d sl (some n) q = none := by
  intro env d sl q n hfe hne hnodot hcand
  have hr : resolvePath env d (some n) = none := by
    rcases hcand with h | h <;>
      simp [resolvePath, hfe, hne, h, rsplitDot_eq_none_of_no_dot n hnodot]
  simp [mkCardImage, CardImage.generate_file_path, hr]

/-- Witness for C9: the card named `nodot` in an empty cache. -/
theorem claim9_dotless_name_index_error_witness :
    mkCardImage envNoFs "abc" [0] (some "nodot") none = none :=
  claim9_dotless_name_index_error envNoFs "abc" [0] none "nodot" rfl (by decide) (by decide)
    (Or.inl rfl)

/-- C10: if the fetch primitive reports success (`ok true`) but the target
file still does not exist afterwards, `download_image` leaves the card
with `downloaded = false` and `errored = false` — the phantom success is
only logged, never marked as an error. -/
theorem claim10_phantom_success_not_errored :
    ∀ (fetch : Fetch) (fs fs1 : String → Bool) (c : CardImage) (fp : String),
    c.downloaded = false → c.errored = false → c.file_path = some fp → fs fp = false →
    fetch c.drive_id fp fs = (FetchOutcome.ok true, fs1) → fs1 fp = false →
    (c.download_image fetch fs).card.downloaded = false ∧
      (c.download_image fetch fs).card.errored = false := by
  intro fetch fs fs1 c fp hd he hfp hfs hfetch hfs1
  have h1 : c.fileExistsB fs = false := by simp [CardImage.fileExistsB, hfp, hfs]
  unfold CardImage.download_image
  simp only [hfp, h1, he, Bool.not_false, Bool.and_self, if_true, hfetch]
  simp [finishDownload, CardImage.fileExistsB, hfp, hfs1, hd]

/-- The rule of `Details.validate` each `ValidationException` reports. -/
def detailsRuleViolated (brackets : List Int) (cardstocks : List String) (p10 : String)
    (d : Details) : DetailsRule → Prop
  | DetailsRule.quantityRange => ¬ (0 < d.quantity ∧ d.quantity ≤ d.bracket)
  | DetailsRule.bracketUnsupported => d.bracket ∉ brackets
  | DetailsRule.stockUnsupported => d.stock ∉ cardstocks
  | DetailsRule.foilUnsupported => d.stock = p10 ∧ d.foil = true

/-- C3: `Details` construction succeeds exactly when `0 < quantity ≤
bracket`, the bracket is in the allowed set, the stock is in the allowed
set, and `(stock, foil)` is not the disallowed P10-with-foil combination;
any violation yields a `ValidationError` that identifies a violated
rule. -/
theorem claim3_details_validation :
    ∀ (brackets : List Int) (cardstocks : List String) (p10 : String) (d : Details),
    (Details.validate brackets cardstocks p10 d = Except.ok () ↔
      (0 < d.quantity ∧ d.quantity ≤ d.bracket ∧ d.bracket ∈ brackets ∧
        d.stock ∈ cardstocks ∧ ¬ (d.stock = p10 ∧ d.foil = true))) ∧
    ∀ e, Details.validate brackets cardstocks p10 d = Except.error e →
      detailsRuleViolated brackets cardstocks p10 d e := by
  intro brackets cardstocks p10 d
  unfold Details.validate
  split_ifs with h1 h2 h3 h4 <;> refine ⟨?_, ?_⟩ <;>
    first
      | (simp only [reduceCtorEq, false_iff, Except.ok.injEq, true_iff]; tauto)
      | (intro e he; simp only [Except.error.injEq] at he; subst he;
         simp only [detailsRuleViolated]; tauto)
      | (intro e he; simp at he)

/-- Witness for C3 at a concrete valid `Details` value. -/
theorem claim3_details_validation_witness :
    Details.validate [18] ["S30"] "P10"
      { quantity := 2, bracket := 18, stock := "S30", foil := false } = Except.ok () :=
  (claim3_details_validation [18] ["S30"] "P10" _).1.mpr (by decide)

/-- Witness for C10: a fetch that reports success while creating nothing. -/
theorem claim10_phantom_success_not_errored_witness :
    (cardW.download_image fetchLieW fsFalse).card.downloaded = false ∧
      (cardW.download_image fetchLieW fsFalse).card.errored = false :=
  claim10_phantom_success_not_errored fetchLieW fsFalse fsFalse cardW "cards/n.png"
    rfl rfl rfl rfl rfl rfl

/-! ## Honest-fetch framework for the idempotence analysis -/

/-- Filesystem growth: every file of `fs` is still present in `fs'`. -/
def fsSub (fs fs' : String → Bool) : Prop := ∀ q, fs q = true → fs' q = true

/-- A well-behaved fetch primitive: it never raises, whenever it reports
success the target file exists afterwards, and it never deletes existing
files. -/
def HonestFetch (fetch : Fetch) : Prop :=
  ∀ d fp fs,
    (fetch d fp fs).1 ≠ FetchOutcome.exn ∧
    ((fetch d fp fs).1 = FetchOutcome.ok true → (fetch d fp fs).2 fp = true) ∧
    fsSub fs (fetch d fp fs).2

/-- The skip condition of step (a) of the acquisition algorithm: a card is
not fetched when its file exists, it is errored, or it has no path. -/
def skipCond (fs : String → Bool) (c : CardImage) : Prop :=
  c.fileExistsB fs = true ∨ c.errored = true ∨ c.file_path = none

theorem fileExistsB_congr (fs : String → Bool) (c1 c2 : CardImage)
    (h : c1.file_path = c2.file_path) : c1.fileExistsB fs = c2.fileExistsB fs := by
  unfold CardImage.fileExistsB
  rw [h]

theorem finishDownload_card_path (c : CardImage) (fs : String → Bool) (k : Nat) :
    (finishDownload c fs k).card.file_path = c.file_path := by
  unfold finishDownload
  dsimp only
  split <;> rfl

theorem finishDownload_card_errored (c : CardImage) (fs : String → Bool) (k : Nat) :
    (finishDownload c fs k).card.errored = c.errored := by
  unfold finishDownload
  dsimp only
  split <;> rfl

theorem fileExistsB_finish (fs2 fs : String → Bool) (c : CardImage) (k : Nat) :
    CardImage.fileExistsB fs2 (finishDownload c fs k).card = CardImage.fileExistsB fs2 c :=
  fileExistsB_congr fs2 _ c (finishDownload_card_path c fs k)

theorem skip_mono (fs fs' : String → Bool) (c : CardImage)
    (h : skipCond fs c) (hsub : fsSub fs fs') : skipCond fs' c := by
  rcases h with h | h | h
  · left
    unfold CardImage.fileExistsB at h ⊢
    cases hfp : c.file_path with
    | none => rw [hfp] at h; exact absurd h (by simp)
    | some p => rw [hfp] at h; exact hsub p h
  · exact Or.inr (Or.inl h)
  · exact Or.inr (Or.inr h)

/-- With an honest fetch, one `download_image` call leaves its card in the
skip condition for the resulting filesystem, and only grows the
filesystem. -/
theorem dl_establish (fetch : Fetch) (hf : HonestFetch fetch) (fs : String → Bool)
    (c : CardImage) :
    skipCond (c.download_image fetch fs).fs (c.download_image fetch fs).card ∧
      fsSub fs (c.download_image fetch fs).fs := by
  unfold CardImage.download_image
  cases hfp : c.file_path with
  | none =>
    refine ⟨Or.inr (Or.inr ?_), fun q h => h⟩
    rw [finishDownload_card_path, hfp]
  | some fp =>
    dsimp only
    by_cases hc : (!c.fileExistsB fs && !c.errored) = true
    · rw [if_pos hc]
      rcases hout : fetch c.drive_id fp fs with ⟨out, fs1⟩
      have hhf := hf c.drive_id fp fs
      rw [hout] at hhf
      cases out with
      | exn => exact absurd rfl hhf.1
      | ok b =>
        cases b with
        | false =>
          refine ⟨Or.inr (Or.inl ?_), hhf.2.2⟩
          rw [finishDownload_card_errored]
          rfl
        | true =>
          refine ⟨Or.inl ?_, hhf.2.2⟩
          rw [fileExistsB_finish]
          simpa [CardImage.fileExistsB] using hhf.2.1 rfl
    · rw [if_neg hc]
      have hor : c.fileExistsB fs = true ∨ c.errored = true := by
        by_cases h1 : c.fileExistsB fs = true
        · exact Or.inl h1
        · right
          by_cases h2 : c.errored = true
          · exact h2
          · exfalso
            apply hc
            rw [Bool.not_eq_true] at h1 h2
            simp [h1, h2]
      refine ⟨?_, fun q h => h⟩
      rcases hor with h | h
      · left
        rw [fileExistsB_finish]
        exact h
      · right; left
        rw [finishDownload_card_errored]
        exact h

/-- A card in the skip condition is not fetched and changes nothing. -/
theorem dl_noop (fetch : Fetch) (fs : String → Bool) (c : CardImage)
    (hskip : skipCond fs c) :
    (c.download_image fetch fs).fetchCalls = 0 ∧ (c.download_image fetch fs).fs = fs ∧
      skipCond fs (c.download_image fetch fs).card := by
  unfold CardImage.download_image
  cases hfp : c.file_path with
  | none =>
    refine ⟨rfl, rfl, Or.inr (Or.inr ?_)⟩
    rw [finishDownload_card_path, hfp]
  | some fp =>
    have hc : ¬ (!c.fileExistsB fs && !c.errored) = true := by
      intro habs
      rcases hskip with h | h | h
      · simp [h] at habs
      · simp [h] at habs
      · rw [hfp] at h; exact absurd h (by simp)
    dsimp only
    rw [if_neg hc]
    refine ⟨rfl, rfl, ?_⟩
    rcases hskip with h | h | h
    · left
      rw [fileExistsB_finish]
      exact h
    · right; left
      rw [finishDownload_card_errored]
      exact h
    · rw [hfp] at h; exact absurd h (by simp)

/-- After an honest first run, every card satisfies the skip condition for
the final filesystem. -/
theorem run_establish (fetch : Fetch) (hf : HonestFetch fetch) :
    ∀ (cs : List CardImage) (fs : String → Bool),
    (∀ r ∈ (downloadAll fetch cs fs).1, skipCond (downloadAll fetch cs fs).2 r.card) ∧
      fsSub fs (downloadAll fetch cs fs).2 := by
  intro cs
  induction cs with
  | nil => exact fun fs => ⟨by simp [downloadAll], fun q h => h⟩
  | cons c cs ih =>
    intro fs
    have h1 := dl_establish fetch hf fs c
    have h2 := ih (c.download_image fetch fs).fs
    constructor
    · intro r hr
      simp only [downloadAll] at hr ⊢
      rcases List.mem_cons.mp hr with rfl | hr
      · exact skip_mono _ _ _ h1.1 h2.2
      · exact h2.1 r hr
    · intro q h
      exact h2.2 q (h1.2 q h)

/-- A batch of cards all in the skip condition performs zero fetches. -/
theorem run_noop (fetch : Fetch) :
    ∀ (cs : List CardImage) (fs : String → Bool), (∀ c ∈ cs, skipCond fs c) →
    totalFetchCalls (downloadAll fetch cs fs).1 = 0 ∧ (downloadAll fetch cs fs).2 = fs := by
  intro cs
  induction cs with
  | nil => exact fun fs _ => ⟨rfl, rfl⟩
  | cons c cs ih =>
    intro fs hall
    have h1 := dl_noop fetch fs c (hall c (List.mem_cons_self c cs))
    have h2 := ih fs (fun x hx => hall x (List.mem_cons_of_mem c hx))
    constructor
    · simp only [downloadAll, totalFetchCalls, List.map_cons, List.sum_cons, h1.1, h1.2.1]
      simpa [totalFetchCalls] using h2.1
    · simp only [downloadAll, h1.2.1]
      exact h2.2

/-- The always-succeeding, file-creating fetch is honest. -/
theorem fetchOkW_honest : HonestFetch fetchOkW := by
  intro d fp fs
  refine ⟨by simp [fetchOkW], ?_, ?_⟩
  · intro _
    simp [fetchOkW]
  · intro q h
    simp [fetchOkW, h]

/-- C2 counterexample: acquisition is not unconditionally idempotent.  A
collection with one resolved, unerrored card whose fetch raises an
exception is run twice; the first run leaves the filesystem literally
unchanged (second conjunct), yet the second run still performs one fetch
call, not zero — the exception path marks nothing errored, so the item is
not skipped. -/
theorem claim2_acquisition_idempotence_counterexample :
    totalFetchCalls (downloadAll fetchExnW
        ((downloadAll fetchExnW [cardW] fsFalse).1.map (fun r => r.card))
        (downloadAll fetchExnW [cardW] fsFalse).2).1 = 1 ∧
      (downloadAll fetchExnW [cardW] fsFalse).2 = fsFalse :=
  ⟨rfl, rfl⟩

/-- C2 (amended): acquisition is idempotent for an honest fetch primitive
— one that never raises, creates the target file whenever it reports
success, and never deletes existing files.  Running the batch a second
time, on the same cards and the filesystem the first run left behind,
performs zero fetch calls: every item is skipped because its target file
exists, or it is marked errored, or it has no resolved path. -/
theorem claim2_acquisition_idempotence_amended :
    ∀ (fetch : Fetch) (fs : String → Bool) (cs : List CardImage), HonestFetch fetch →
    totalFetchCalls (downloadAll fetch
        ((downloadAll fetch cs fs).1.map (fun r => r.card))
        (downloadAll fetch cs fs).2).1 = 0 := by
  intro fetch fs cs hf
  have h1 := run_establish fetch hf cs fs
  refine (run_noop fetch _ _ ?_).1
  intro c hc
  obtain ⟨r, hr, rfl⟩ := List.mem_map.mp hc
  exact h1.1 r hr

/-- Witness for the amended C2 at a concrete honest fetch and batch. -/
theorem claim2_acquisition_idempotence_amended_witness :
    totalFetchCalls (downloadAll fetchOkW
        ((downloadAll fetchOkW [cardW] fsFalse).1.map (fun r => r.card))
        (downloadAll fetchOkW [cardW] fsFalse).2).1 = 0 :=
  claim2_acquisition_idempotence_amended fetchOkW fsFalse [cardW] fetchOkW_honest

/-! ## Structure of collection and order construction -/

/-- Complete case analysis of a successful
`CardImageCollection.from_element` run: the explicit cards built, the
collection fields, and whether the fill card was appended. -/
theorem from_element_ok_cases (env : ResolveEnv) (records : List CardRecord) (n : Int)
    (face : Faces) (fid : Option String) (coll : CardImageCollection)
    (h : CardImageCollection.from_element env records n face fid = Except.ok coll) :
    ∃ cards, buildCards env records = Except.ok cards ∧
      coll.num_slots = n ∧ coll.face = face ∧ n ≠ 0 ∧ coll.cards ≠ [] ∧
      ((coll.cards = cards ∧
         (fid = none ∨ fid = some "" ∨ missingSlots n cards = [])) ∨
       (∃ fid' fc, fid = some fid' ∧ fid' ≠ "" ∧ missingSlots n cards ≠ [] ∧
         mkCardImage env (stripQuotesSpaces fid') (missingSlots n cards) (some "") none
           = some fc ∧
         coll.cards = cards ++ [fc])) := by
  unfold CardImageCollection.from_element at h
  cases hbc : buildCards env records with
  | error e => rw [hbc] at h; exact absurd h (by simp)
  | ok cards =>
    rw [hbc] at h
    refine ⟨cards, rfl, ?_⟩
    dsimp only at h
    cases fid with
    | none =>
      dsimp only at h
      split at h
      · exact absurd h (by simp)
      · rename_i hcond
        injection h with h
        subst h
        push_neg at hcond
        exact ⟨rfl, rfl, hcond.1, hcond.2, Or.inl ⟨rfl, Or.inl rfl⟩⟩
    | some fid' =>
      dsimp only at h
      by_cases hfe : fid' = ""
      · subst hfe
        rw [if_neg (by simp)] at h
        dsimp only at h
        split at h
        · exact absurd h (by simp)
        · rename_i hcond
          injection h with h
          subst h
          push_neg at hcond
          exact ⟨rfl, rfl, hcond.1, hcond.2, Or.inl ⟨rfl, Or.inr (Or.inl rfl)⟩⟩
      · rw [if_pos hfe] at h
        by_cases hmiss : missingSlots n cards = []
        · rw [if_neg (by simp [hmiss])] at h
          dsimp only at h
          split at h
          · exact absurd h (by simp)
          · rename_i hcond
            injection h with h
            subst h
            push_neg at hcond
            exact ⟨rfl, rfl, hcond.1, hcond.2, Or.inl ⟨rfl, Or.inr (Or.inr hmiss)⟩⟩
        · rw [if_pos hmiss] at h
          cases hmk : mkCardImage env (stripQuotesSpaces fid') (missingSlots n cards)
              (some "") none with
          | none => rw [hmk] at h; exact absurd h (by simp)
          | some fc =>
            rw [hmk] at h
            dsimp only at h
            split at h
            · exact absurd h (by simp)
            · rename_i hcond
              injection h with h
              subst h
              push_neg at hcond
              exact ⟨rfl, rfl, hcond.1, hcond.2,
                Or.inr ⟨fid', fc, rfl, hfe, hmiss, hmk, rfl⟩⟩

theorem mem_flatSlots (cards : List CardImage) (s : Int) :
    s ∈ flatSlots cards ↔ ∃ c ∈ cards, s ∈ c.slots := by
  induction cards with
  | nil => simp [flatSlots]
  | cons c cs ih =>
    simp only [flatSlots, List.foldr_cons, List.mem_append, List.mem_cons]
    rw [show cs.foldr (fun c acc => c.slots ++ acc) [] = flatSlots cs from rfl]
    rw [ih]
    constructor
    · rintro (h | ⟨x, hx, hsx⟩)
      · exact ⟨c, Or.inl rfl, h⟩
      · exact ⟨x, Or.inr hx, hsx⟩
    · rintro ⟨x, rfl | hx, hsx⟩
      · exact Or.inl hsx
      · exact Or.inr ⟨x, hx, hsx⟩

theorem flatSlots_append (l1 l2 : List CardImage) :
    flatSlots (l1 ++ l2) = flatSlots l1 ++ flatSlots l2 := by
  induction l1 with
  | nil => simp [flatSlots]
  | cons c cs ih => simp [flatSlots, List.foldr_cons] at ih ⊢; rw [ih]

/-- Building the explicit cards leaves every declared slot list intact. -/
theorem buildCards_slots (env : ResolveEnv) :
    ∀ (records : List CardRecord) (cards : List CardImage),
    buildCards env records = Except.ok cards →
    cards.map (fun c => c.slots) = records.map (fun r => r.slots) := by
  intro records
  induction records with
  | nil =>
    intro cards h
    injection h with h
    subst h
    rfl
  | cons r rs ih =>
    intro cards h
    unfold buildCards at h
    cases hmk : CardImage.from_element env r with
    | none => rw [hmk] at h; exact absurd h (by simp)
    | some c =>
      rw [hmk] at h
      cases hbc : buildCards env rs with
      | error e => rw [hbc] at h; exact absurd h (by simp [Except.map])
      | ok cs =>
        rw [hbc] at h
        dsimp only [Except.map] at h
        injection h with h
        subst h
        unfold CardImage.from_element at hmk
        have hsl := (mkCardImage_slots env _ r.slots r.name r.query c hmk).1
        simp [hsl, ih cs hbc]

/-- C4 counterexample: the slot-coverage invariant is not enforced at
construction.  A document declaring slot 5 for a one-slot front face
builds successfully — collection validation only warns about missing
slots, it never checks that declared slots lie inside
`[0, total_slots)` — and the resulting collection's slot union is `[5]`,
which is not a subset of `[0, 1)`. -/
theorem claim4_slot_invariant_counterexample :
    (CardImageCollection.from_element envNoFs
        [{ idText := some "id5", slots := [5], name := some "n.png" }] 1 Faces.front
        none).map (fun coll => flatSlots coll.cards) = Except.ok [5] ∧
      ¬ ((5 : Int) ∈ intRange 1) :=
  ⟨rfl, by decide⟩

/-- C4 (amended): whenever the document's declared slots all lie within
`[0, total_slots)`, every collection built from it — including the
synthesized fill image, whose slots are always drawn from the computed
complement — has its slot union inside `[0, total_slots)`; for
out-of-range document slots the code performs no check, so the invariant
holds only under that hypothesis. -/
theorem claim4_slot_invariant_amended :
    ∀ (env : ResolveEnv) (records : List CardRecord) (n : Int) (face : Faces)
      (fid : Option String) (coll : CardImageCollection),
    CardImageCollection.from_element env records n face fid = Except.ok coll →
    (∀ r ∈ records, ∀ s ∈ r.slots, 0 ≤ s ∧ s < n) →
    ∀ s ∈ flatSlots coll.cards, 0 ≤ s ∧ s < n := by
  intro env records n face fid coll h hdoc
  obtain ⟨cards, hbc, hn, hface, hn0, hne, hcase⟩ :=
    from_element_ok_cases env records n face fid coll h
  have hcards : ∀ s ∈ flatSlots cards, 0 ≤ s ∧ s < n := by
    intro s hs
    obtain ⟨c, hc, hsc⟩ := (mem_flatSlots cards s).mp hs
    have hmap := buildCards_slots env records cards hbc
    have hm : c.slots ∈ cards.map (fun c => c.slots) := List.mem_map_of_mem _ hc
    rw [hmap] at hm
    obtain ⟨r, hr, hre⟩ := List.mem_map.mp hm
    exact hdoc r hr s (by rw [hre]; exact hsc)
  rcases hcase with ⟨hcc, _⟩ | ⟨fid2, fc, _, _, _, hmk, hcc⟩
  · rw [hcc]; exact hcards
  · rw [hcc]
    intro s hs
    rw [flatSlots_append] at hs
    rcases List.mem_append.mp hs with hs | hs
    · exact hcards s hs
    · have hfc := (mkCardImage_slots env _ _ _ _ fc hmk).1
      simp only [flatSlots, List.foldr_cons, List.foldr_nil, List.append_nil] at hs
      rw [hfc] at hs
      exact ((mem_missingSlots n cards s).mp hs).1

/-- C6: building a collection with a non-empty fallback identifier either
appends exactly one synthetic Card Image whose slot set is exactly the
uncovered part of `[0, total_slots)` (when some slot is uncovered), or
appends nothing (when the explicit cards cover every slot). -/
theorem claim6_fill_image_exact_slots :
    ∀ (env : ResolveEnv) (records : List CardRecord) (n : Int) (face : Faces)
      (fid : String) (coll : CardImageCollection),
    fid ≠ "" →
    CardImageCollection.from_element env records n face (some fid) = Except.ok coll →
    ∃ cards, buildCards env records = Except.ok cards ∧
      ((missingSlots n cards = [] ∧ coll.cards = cards) ∨
       (missingSlots n cards ≠ [] ∧ ∃ fc, coll.cards = cards ++ [fc] ∧
         fc.slots = missingSlots n cards ∧
         (∀ s : Int, s ∈ fc.slots ↔ ((0 ≤ s ∧ s < n) ∧ s ∉ flatSlots cards)))) := by
  intro env records n face fid coll hfid h
  obtain ⟨cards, hbc, hn, hface, hn0, hne, hcase⟩ :=
    from_element_ok_cases env records n face (some fid) coll h
  refine ⟨cards, hbc, ?_⟩
  rcases hcase with ⟨hcc, hor⟩ | ⟨fid2, fc, heq, hfe2, hmiss, hmk, hcc⟩
  · rcases hor with hor | hor | hor
    · exact absurd hor (by simp)
    · exact absurd (by injection hor) hfid
    · exact Or.inl ⟨hor, hcc⟩
  · right
    refine ⟨hmiss, fc, hcc, ?_, ?_⟩
    · exact (mkCardImage_slots env _ _ _ _ fc hmk).1
    · intro s
      rw [(mkCardImage_slots env _ _ _ _ fc hmk).1]
      exact mem_missingSlots n cards s

/-- Complete destructuring of a successful `CardOrder.from_element` run. -/
theorem order_from_element_ok (env : ResolveEnv) (brackets : List Int)
    (cardstocks : List String) (p10 : String) (nm : Option String)
    (inp : OrderElementData) (o : CardOrder)
    (h : CardOrder.from_element env brackets cardstocks p10 nm inp = Except.ok o) :
    ∃ fronts backs0,
      Details.validate brackets cardstocks p10 inp.details = Except.ok () ∧
      CardImageCollection.from_element env inp.fronts inp.details.quantity Faces.front none
        = Except.ok fronts ∧
      CardImageCollection.from_element env inp.backs inp.details.quantity Faces.back
        inp.cardback = Except.ok backs0 ∧
      o.details = inp.details ∧ o.name = nm ∧ o.fronts = fronts ∧
      o.backs = (match backs0.cards with
        | [b] => { backs0 with cards := [{ b with slots := [0] }] }
        | _ => backs0) ∧
      CardOrder.validate o = Except.ok () := by
  unfold CardOrder.from_element at h
  cases hv : Details.validate brackets cardstocks p10 inp.details with
  | error e => rw [hv] at h; exact absurd h (by simp)
  | ok u =>
    rw [hv] at h
    cases u
    dsimp only at h
    cases hfr : CardImageCollection.from_element env inp.fronts inp.details.quantity
        Faces.front none with
    | error e => rw [hfr] at h; exact absurd h (by simp)
    | ok fronts =>
      rw [hfr] at h
      dsimp only at h
      cases hbk : CardImageCollection.from_element env inp.backs inp.details.quantity
          Faces.back inp.cardback with
      | error e => rw [hbk] at h; exact absurd h (by simp)
      | ok backs0 =>
        rw [hbk] at h
        dsimp only at h
        cases hov : CardOrder.validate
            { name := nm, details := inp.details, fronts := fronts,
              backs := (match backs0.cards with
                | [b] => { backs0 with cards := [{ b with slots := [0] }] }
                | _ => backs0) } with
        | error e => rw [hov] at h; exact absurd h (by simp)
        | ok u2 =>
          rw [hov] at h
          cases u2
          injection h with h
          subst h
          exact ⟨fronts, backs0, rfl, rfl, rfl, rfl, rfl, rfl, rfl, hov⟩

/-- C5: in every order produced by `CardOrder.from_element`, a back
collection holding exactly one Card Image has that image's slot set
forced to `[0]`, whatever slots it carried before; in particular, with a
non-empty cardback value and an empty backs element the back collection
is exactly one synthetic Card Image with slots `[0]` and the stripped
cardback id, regardless of quantity. -/
theorem claim5_single_back_forced_slots :
    ∀ (env : ResolveEnv) (brackets : List Int) (cardstocks : List String) (p10 : String)
      (nm : Option String) (inp : OrderElementData) (o : CardOrder) (cb : String),
    CardOrder.from_element env brackets cardstocks p10 nm inp = Except.ok o →
    (∀ b, o.backs.cards = [b] → b.slots = [0]) ∧
    (inp.backs = [] → inp.cardback = some cb → cb ≠ "" →
      o.backs.cards.map (fun b => (b.slots, b.drive_id)) = [([0], stripQuotesSpaces cb)]) := by
  intro env brackets cardstocks p10 nm inp o cb h
  obtain ⟨fronts, backs0, hv, hfr, hbk, hdet, hnm, hfrO, hbkO, hval⟩ :=
    order_from_element_ok env brackets cardstocks p10 nm inp o h
  constructor
  · intro b hb
    cases hcs : backs0.cards with
    | nil =>
      rw [hbkO, hcs] at hb
      dsimp only at hb
      rw [hcs] at hb
      simp at hb
    | cons x xs =>
      cases xs with
      | nil =>
        rw [hbkO, hcs] at hb
        dsimp only at hb
        injection hb with hb1 hb2
        rw [← hb1]
      | cons y ys =>
        rw [hbkO, hcs] at hb
        dsimp only at hb
        rw [hcs] at hb
        simp at hb
  · intro hbe hcb hcbne
    rw [hbe, hcb] at hbk
    obtain ⟨cards, hbc, hn, hface, hn0, hne, hcase⟩ :=
      from_element_ok_cases env [] inp.details.quantity Faces.back (some cb) backs0 hbk
    have hcards : cards = [] := by
      have hnil : buildCards env ([] : List CardRecord) = Except.ok [] := rfl
      rw [hnil] at hbc
      injection hbc with hbc
      exact hbc.symm
    subst hcards
    have hq : 0 < inp.details.quantity := by
      have hv2 := hv
      unfold Details.validate at hv2
      split_ifs at hv2 with h1 h2 h3 h4
      exact h1.1
    have hmem0 : (0 : Int) ∈ missingSlots inp.details.quantity [] := by
      rw [mem_missingSlots]
      refine ⟨⟨le_refl 0, hq⟩, ?_⟩
      simp [flatSlots]
    rcases hcase with ⟨hcc, hor⟩ | ⟨fid2, fc, heq, hfe2, hmiss, hmk, hcc⟩
    · rcases hor with hor | hor | hor
      · exact absurd hor (by simp)
      · exact absurd (by injection hor) hcbne
      · rw [hor] at hmem0; exact absurd hmem0 (by simp)
    · have hfid2 : fid2 = cb := by injection heq with heq; exact heq.symm
      subst hfid2
      have hsl := mkCardImage_slots env _ _ _ _ fc hmk
      rw [hbkO, hcc]
      simp [hsl.2]

/-- `find?` returns the unique element satisfying the predicate. -/
theorem find?_eq_some_of_unique {p : CardImage → Bool} {l : List CardImage} {c : CardImage}
    (hc : c ∈ l) (hpc : p c = true) (huniq : ∀ x ∈ l, p x = true → x = c) :
    l.find? p = some c := by
  induction l with
  | nil => cases hc
  | cons a l ih =>
    by_cases hpa : p a = true
    · have ha : a = c := huniq a (List.mem_cons_self a l) hpa
      subst ha
      exact List.find?_cons_of_pos l hpa
    · rw [List.find?_cons_of_neg l hpa]
      rcases List.mem_cons.mp hc with rfl | hcl
      · exact absurd hpc hpa
      · exact ih hcl (fun x hx hpx => huniq x (List.mem_cons_of_mem a hx) hpx)

/-- C7 counterexample: a card whose remote identifier is non-empty but
unresolvable (name lookup answers nothing, no display name, id is not a
local file) does NOT end with `resolved_path = None` — the code assumes a
`.png` extension and synthesizes a cache path instead, so Order-level
validation does not flag it. -/
theorem claim7_unresolvable_scenario_counterexample :
    (mkCardImage envNoFs "abc" [0] none none).map (fun c => c.file_path) =
      some (some "cards/abc.png") := rfl

/-- C7 (amended): a Card Image whose remote identifier is EMPTY, whose
name lookup yields nothing and which has no display name ends up with
`resolved_path = None` and is marked errored; and Order-level validation
fails on any order containing such a card, naming the affected card's
slots in the error (a non-empty unresolvable identifier instead receives
an assumed `.png` path, which is why the hypothesis is an empty id). -/
theorem claim7_path_invariant_amended :
    ∀ (env : ResolveEnv) (sl : List Int) (q : Option String) (o : CardOrder) (c : CardImage),
    env.fileExistsQ "" = false → env.lookupName "" = none →
    mkCardImage env "" sl none q = some c →
    (c.file_path = none ∧ c.errored = true) ∧
    (c ∈ o.backs.cards → (∀ x ∈ o.fronts.cards, falsyPath x = false) →
      (∀ x ∈ o.backs.cards, falsyPath x = true → x = c) →
      CardOrder.validate o =
        Except.error { face := Faces.back, slots := c.slots, driveId := c.drive_id }) := by
  intro env sl q o c hfe hlk hmk
  have hres : resolvePath env "" none = some (none, none) := by
    unfold resolvePath
    rw [if_neg (by simp [hfe])]
    dsimp only
    rw [if_pos (Or.inl rfl), hlk]
    dsimp only
    rw [if_neg (by simp)]
  obtain ⟨p, hp, hc⟩ := (mkCardImage_eq_some_iff env "" sl none q c).mp hmk
  rw [hres] at hp
  injection hp with hp
  subst hp
  subst hc
  refine ⟨⟨rfl, rfl⟩, ?_⟩
  intro hmem hfr huniq
  unfold CardOrder.validate
  rw [List.find?_eq_none.mpr ?hfrnone]
  case hfrnone =>
    intro x hx
    simp [hfr x hx]
  dsimp only
  rw [find?_eq_some_of_unique hmem (by simp [falsyPath]) huniq]

/-! ## Concrete constructions for the remaining witnesses -/

def collJunk : CardImageCollection := { cards := [], num_slots := 0, face := Faces.front }

/-- A document face declaring one card in slots 0 and 1. -/
def recs4 : List CardRecord := [{ idText := some "f", slots := [0, 1], name := some "n.png" }]

def collW4 : CardImageCollection :=
  (CardImageCollection.from_element envNoFs recs4 2 Faces.front none).toOption.getD collJunk

/-- Witness for the amended C4: the two-slot collection's slot union is
`[0, 1]` and slot 1 is within range. -/
theorem claim4_slot_invariant_amended_witness :
    flatSlots collW4.cards = [0, 1] ∧ (0 ≤ (1 : Int) ∧ (1 : Int) < 2) :=
  ⟨rfl, claim4_slot_invariant_amended envNoFs recs4 2 Faces.front none collW4 rfl (by decide)
    1 (by decide)⟩

def collW6 : CardImageCollection :=
  (CardImageCollection.from_element envNoFs recs4 3 Faces.back (some "cb")).toOption.getD
    collJunk

/-- Witness for C6: a three-slot back face with slots 0 and 1 explicit
gets exactly one fill card, covering exactly slot 2. -/
theorem claim6_fill_image_exact_slots_witness :
    ∃ cards, buildCards envNoFs recs4 = Except.ok cards ∧
      ((missingSlots 3 cards = [] ∧ collW6.cards = cards) ∨
       (missingSlots 3 cards ≠ [] ∧ ∃ fc, collW6.cards = cards ++ [fc] ∧
         fc.slots = missingSlots 3 cards ∧
         (∀ s : Int, s ∈ fc.slots ↔ ((0 ≤ s ∧ s < 3) ∧ s ∉ flatSlots cards)))) :=
  claim6_fill_image_exact_slots envNoFs recs4 3 Faces.back "cb" collW6 (by decide) rfl

def detailsW : Details := { quantity := 2, bracket := 18, stock := "S30", foil := false }

/-- An order document with a cardback value and an empty backs element. -/
def inpW5 : OrderElementData :=
  { details := detailsW, fronts := recs4, backs := [], cardback := some "cb" }

def orderJunk : CardOrder :=
  { name := none, details := detailsW, fronts := collJunk, backs := collJunk }

def orderW5 : CardOrder :=
  (CardOrder.from_element envNoFs [18] ["S30"] "P10" none inpW5).toOption.getD orderJunk

/-- Witness for C5: the empty-backs-with-cardback order has a single back
card with slots `[0]` and the cardback id. -/
theorem claim5_single_back_forced_slots_witness :
    orderW5.backs.cards.map (fun b => (b.slots, b.drive_id)) =
      [([0], stripQuotesSpaces "cb")] :=
  (claim5_single_back_forced_slots envNoFs [18] ["S30"] "P10" none inpW5 orderW5 "cb"
    rfl).2 rfl rfl (by decide)

/-- The card the amended C7 scenario produces: empty id, no name, no
resolved path, errored. -/
def badCardW : CardImage :=
  { drive_id := "", slots := [4, 7], name := none, file_path := none, errored := true }

/-- An order whose back face contains the irresolvable card. -/
def orderW7 : CardOrder :=
  { name := none, details := detailsW,
    fronts := { cards := [cardW], num_slots := 2, face := Faces.front },
    backs := { cards := [badCardW], num_slots := 2, face := Faces.back } }

/-- Witness for the amended C7: validation rejects the order and names
slots 4 and 7. -/
theorem claim7_path_invariant_amended_witness :
    CardOrder.validate orderW7 =
      Except.error { face := Faces.back, slots := [4, 7], driveId := "" } :=
  (claim7_path_invariant_amended envNoFs [4, 7] none orderW7 badCardW rfl rfl rfl).2
    (by decide) (by decide) (by decide)

end MpcOrder
